import Mathlib

/-
Verification of the cellular-automaton maze solver (multi_phase.py and its
HTML-rendering twin multi_phase_html.py).

The grid is `list[list[str]]` in the source; we embed it as
`List (List String)`.  The source assumes (without enforcing) that grids are
rectangular; reads use Python indexing, which we embed with `List.getD`
(the default is never reached on rectangular grids at in-bounds
coordinates).  In-place cell assignment is embedded as `List.set`, with the
updated grid threaded explicitly through every visitor call.  Python's
`int(...)` conversion (base 10, optional surrounding whitespace, optional
sign) is embedded as `pyInt`; a raised `ValueError` is `none`.
-/

abbrev Grid := List (List String)

/-- Read `p_grid[r][c]`. -/
def gget (g : Grid) (r c : Nat) : String := (g.getD r []).getD c ""

/-- Write `p_grid[r][c] = v`. -/
def gset (g : Grid) (r c : Nat) (v : String) : Grid :=
  g.set r ((g.getD r []).set c v)

def isPyDigit (c : Char) : Bool := '0' ≤ c && c ≤ '9'

def isPySpace (c : Char) : Bool := c = ' ' || c = '\t' || c = '\n' || c = '\r'

def digitsToNat (l : List Char) : Nat :=
  l.foldl (fun a c => 10 * a + (c.toNat - '0'.toNat)) 0

/-- Parse a whitespace-stripped character list the way Python int() does:
an optional sign followed by a nonempty run of decimal digits. -/
def pyIntCore : List Char → Option Int
  | [] => none
  | '+' :: rest =>
    if rest.isEmpty then none
    else if rest.all isPyDigit then some (Int.ofNat (digitsToNat rest)) else none
  | '-' :: rest =>
    if rest.isEmpty then none
    else if rest.all isPyDigit then some (-(Int.ofNat (digitsToNat rest))) else none
  | c :: rest =>
    if (c :: rest).all isPyDigit then some (Int.ofNat (digitsToNat (c :: rest))) else none

def stripSpaces (l : List Char) : List Char :=
  ((l.dropWhile isPySpace).reverse.dropWhile isPySpace).reverse

/-- Python `int(s)`; `none` models the raised ValueError. -/
def pyInt (s : String) : Option Int := pyIntCore (stripSpaces s.toList)

/-- The neighbor test `in ["S", "E", " "]` used by the adjacency visitor. -/
def openNeighbor (s : String) : Bool := s = "S" || s = "E" || s = " "

/-- multi_phase.py, visitor_for_adjacency (lines 10-42): counts, for a
non-wall cell, the four orthogonal directions that are off-grid or hold an
"S"/"E"/" " neighbor; a wall cell scores 0.  Pure query, no mutation. -/
def visitor_for_adjacency (g : Grid) (r c : Nat) : Nat :=
  if gget g r c = "X" then 0
  else
    (if r = 0 then 1 else if openNeighbor (gget g (r - 1) c) then 1 else 0) +
    (if c = 0 then 1 else if openNeighbor (gget g r (c - 1)) then 1 else 0) +
    (if c + 1 ≥ (g.getD r []).length then 1
     else if openNeighbor (gget g r (c + 1)) then 1 else 0) +
    (if r + 1 ≥ g.length then 1 else if openNeighbor (gget g (r + 1) c) then 1 else 0)

/-- multi_phase.py, visitor_for_length (lines 45-57): parse the cell label
as an integer, defaulting to -1 on ValueError.  Pure query. -/
def visitor_for_length (g : Grid) (r c : Nat) : Int :=
  match pyInt (gget g r c) with
  | some n => n
  | none => -1

/-- multi_phase.py, visitor_for_path (lines 60-73): a cell whose adjacency
count is exactly 1 becomes a wall; result is (changed flag, updated grid). -/
def visitor_for_path (g : Grid) (r c : Nat) : Nat × Grid :=
  if visitor_for_adjacency g r c = 1 then (1, gset g r c "X") else (0, g)

/-- One neighbor's contribution in visitor_for_path_length: 1 for "S",
n + 1 for a label that int() parses as n, nothing otherwise. -/
def lengthCandidate (s : String) : Option Int :=
  if s = "S" then some 1
  else
    match pyInt s with
    | some n => some (n + 1)
    | none => none

/-- The l_adjacent_lengths list collected by visitor_for_path_length, in
source order up, left, right, down with the same existence guards. -/
def adjacentLengths (g : Grid) (r c : Nat) : List Int :=
  (if r ≥ 1 then (lengthCandidate (gget g (r - 1) c)).toList else []) ++
  (if c ≥ 1 then (lengthCandidate (gget g r (c - 1))).toList else []) ++
  (if c + 1 < (g.getD r []).length then (lengthCandidate (gget g r (c + 1))).toList else []) ++
  (if r + 1 < g.length then (lengthCandidate (gget g (r + 1) c)).toList else [])

/-- Python min over a nonempty list, head plus tail. -/
def pyMin : Int → List Int → Int
  | x, [] => x
  | x, y :: ys => pyMin (min x y) ys

/-- multi_phase.py, visitor_for_path_length (lines 76-137): skip "X"/"S"/"E"
cells; collect neighbor candidates only for " " cells; if any candidate
exists write the minimum as the new label (changed when it differs). -/
def visitor_for_path_length (g : Grid) (r c : Nat) : Nat × Grid :=
  if gget g r c ∈ (["X", "S", "E"] : List String) then (0, g)
  else
    match (if gget g r c = " " then adjacentLengths g r c else []) with
    | [] => (0, g)
    | x :: xs =>
      ((if toString (pyMin x xs) ≠ gget g r c then 1 else 0),
       gset g r c (toString (pyMin x xs)))

/-- Row-major visit of a list of coordinates, threading the mutated grid
and summing the changed flags, as the nested for loops of the appliers do. -/
def visitCells (f : Grid → Nat → Nat → Nat × Grid) : List (Nat × Nat) → Grid → Nat × Grid
  | [], g => (0, g)
  | rc :: rest, g =>
    ((f g rc.1 rc.2).1 + (visitCells f rest (f g rc.1 rc.2).2).1,
     (visitCells f rest (f g rc.1 rc.2).2).2)

/-- The row-major coordinate sequence `for l_row in range(len(p_grid)):
for l_column in range(len(p_grid[l_row])):`. -/
def cellIndices (g : Grid) : List (Nat × Nat) :=
  (List.range g.length).flatMap
    (fun r => (List.range ((g.getD r []).length)).map (fun c => (r, c)))

/-- One full pass of a mutating visitor over the whole grid. -/
def apply_visitor_pass (g : Grid) (f : Grid → Nat → Nat → Nat × Grid) : Nat × Grid :=
  visitCells f (cellIndices g) g

/-- multi_phase.py, apply_visitor_until_stable (lines 186-201): repeat full
passes until one makes zero changes.  The while loop always runs at least
one pass and stops right after the first zero-change pass; the fuel
argument only bounds the number of passes (`none` = fuel exhausted before
stability), since the Python loop has no such bound. -/
def apply_visitor_until_stable : Nat → Grid → (Grid → Nat → Nat → Nat × Grid) → Option Grid
  | 0, _, _ => none
  | fuel + 1, g, f =>
    if (apply_visitor_pass g f).1 = 0 then some (apply_visitor_pass g f).2
    else apply_visitor_until_stable fuel (apply_visitor_pass g f).2 f

/-- multi_phase.py, apply_visitor_compute_max (lines 169-183): the change
counter is initialized to 0 in the loop body and never incremented, so the
while loop performs exactly one row-major pass, folding max from the
initial `l_max = 0` over a pure visitor. -/
def apply_visitor_compute_max (g : Grid) (f : Grid → Nat → Nat → Int) : Int :=
  (cellIndices g).foldl (fun m rc => max m (f g rc.1 rc.2)) 0

/-- Per-cell action of break_loops: the target label becomes a wall, any
other label that int() parses becomes open, anything else is kept. -/
def breakCell (pmax s : String) : String :=
  if s = pmax then "X"
  else
    match pyInt s with
    | some _ => " "
    | none => s

/-- multi_phase.py, break_loops (lines 204-223): applied cell by cell; each
new label depends only on the old label of the same cell, so the in-place
double loop is a map. -/
def break_loops (g : Grid) (pmax : String) : Grid :=
  g.map (fun row => row.map (breakCell pmax))

/-- One iteration of the while-True body of main (lines 235-246), starting
after the grid is loaded: erode dead ends to a fixed point, measure max
adjacency, and either finish (`Sum.inl`, max adjacency ≤ 2) or propagate
distances, measure the max distance and break loops (`Sum.inr`).  `fi` is
the fuel handed to the two fixed-point runs. -/
def outerStep (fi : Nat) (g : Grid) : Option (Grid ⊕ Grid) :=
  match apply_visitor_until_stable fi g visitor_for_path with
  | none => none
  | some g1 =>
    if apply_visitor_compute_max g1 (fun h r c => (visitor_for_adjacency h r c : Int)) > 2 then
      match apply_visitor_until_stable fi g1 visitor_for_path_length with
      | none => none
      | some g2 =>
        some (Sum.inr (break_loops g2
          (toString (apply_visitor_compute_max g2 visitor_for_length))))
    else some (Sum.inl g1)

/-- The while-True loop of main: iterate outerStep until it reports done;
`some` is the final grid of the DONE state, `none` is fuel exhaustion. -/
def mainLoop : Nat → Nat → Grid → Option Grid
  | 0, _, _ => none
  | k + 1, fi, g =>
    match outerStep fi g with
    | none => none
    | some (Sum.inl g1) => some g1
    | some (Sum.inr g1) => mainLoop k fi g1

/-- Number of cells of the grid. -/
def cellCount (g : Grid) : Nat := (cellIndices g).length

/-- Number of cells labeled "X". -/
def wallCount (g : Grid) : Nat :=
  (cellIndices g).countP (fun rc => gget g rc.1 rc.2 == "X")

/-- Grids reachable from g by outer iterations that continue (loop-break
performed, back to the top of the while loop). -/
inductive Reaches (fi : Nat) : Grid → Grid → Prop
  | refl (g : Grid) : Reaches fi g g
  | step {g g1 g2 : Grid} :
      outerStep fi g = some (Sum.inr g1) → Reaches fi g1 g2 → Reaches fi g g2

/-
multi_phase_html.py duplicates every core function of multi_phase.py
verbatim; it differs only in the rendering helpers (html_write_headings,
html_svg_write_matrix, html_write_footings) and in calling the SVG renderer
where the text version prints or stays silent.  The renderer only reads the
grid and writes to stdout, so it has no effect on the grid and is elided
from this embedding; the call site inside the stable loop (line 197 of the
html file) therefore leaves the pass unchanged.  The namespace Html below
re-embeds the html file's core functions.
-/

namespace Html

def visitor_for_adjacency (g : Grid) (r c : Nat) : Nat :=
  if gget g r c = "X" then 0
  else
    (if r = 0 then 1 else if openNeighbor (gget g (r - 1) c) then 1 else 0) +
    (if c = 0 then 1 else if openNeighbor (gget g r (c - 1)) then 1 else 0) +
    (if c + 1 ≥ (g.getD r []).length then 1
     else if openNeighbor (gget g r (c + 1)) then 1 else 0) +
    (if r + 1 ≥ g.length then 1 else if openNeighbor (gget g (r + 1) c) then 1 else 0)

def visitor_for_length (g : Grid) (r c : Nat) : Int :=
  match pyInt (gget g r c) with
  | some n => n
  | none => -1

def visitor_for_path (g : Grid) (r c : Nat) : Nat × Grid :=
  if Html.visitor_for_adjacency g r c = 1 then (1, gset g r c "X") else (0, g)

def lengthCandidate (s : String) : Option Int :=
  if s = "S" then some 1
  else
    match pyInt s with
    | some n => some (n + 1)
    | none => none

def adjacentLengths (g : Grid) (r c : Nat) : List Int :=
  (if r ≥ 1 then (Html.lengthCandidate (gget g (r - 1) c)).toList else []) ++
  (if c ≥ 1 then (Html.lengthCandidate (gget g r (c - 1))).toList else []) ++
  (if c + 1 < (g.getD r []).length then (Html.lengthCandidate (gget g r (c + 1))).toList else []) ++
  (if r + 1 < g.length then (Html.lengthCandidate (gget g (r + 1) c)).toList else [])

def visitor_for_path_length (g : Grid) (r c : Nat) : Nat × Grid :=
  if gget g r c ∈ (["X", "S", "E"] : List String) then (0, g)
  else
    match (if gget g r c = " " then Html.adjacentLengths g r c else []) with
    | [] => (0, g)
    | x :: xs =>
      ((if toString (pyMin x xs) ≠ gget g r c then 1 else 0),
       gset g r c (toString (pyMin x xs)))

def apply_visitor_until_stable : Nat → Grid → (Grid → Nat → Nat → Nat × Grid) → Option Grid
  | 0, _, _ => none
  | fuel + 1, g, f =>
    if (apply_visitor_pass g f).1 = 0 then some (apply_visitor_pass g f).2
    else Html.apply_visitor_until_stable fuel (apply_visitor_pass g f).2 f

def apply_visitor_compute_max (g : Grid) (f : Grid → Nat → Nat → Int) : Int :=
  (cellIndices g).foldl (fun m rc => max m (f g rc.1 rc.2)) 0

def break_loops (g : Grid) (pmax : String) : Grid :=
  g.map (fun row => row.map (breakCell pmax))

def outerStep (fi : Nat) (g : Grid) : Option (Grid ⊕ Grid) :=
  match Html.apply_visitor_until_stable fi g Html.visitor_for_path with
  | none => none
  | some g1 =>
    if Html.apply_visitor_compute_max g1 (fun h r c => (Html.visitor_for_adjacency h r c : Int)) > 2 then
      match Html.apply_visitor_until_stable fi g1 Html.visitor_for_path_length with
      | none => none
      | some g2 =>
        some (Sum.inr (Html.break_loops g2
          (toString (Html.apply_visitor_compute_max g2 Html.visitor_for_length))))
    else some (Sum.inl g1)

def mainLoop : Nat → Nat → Grid → Option Grid
  | 0, _, _ => none
  | k + 1, fi, g =>
    match Html.outerStep fi g with
    | none => none
    | some (Sum.inl g1) => some g1
    | some (Sum.inr g1) => Html.mainLoop k fi g1

end Html

/-- Specification-side reading of the adjacency rule: the four orthogonal
directions, as offsets. -/
def adjDirs : List (Int × Int) := [(-1, 0), (0, -1), (0, 1), (1, 0)]

/-- Specification-side reading of one adjacency test: the direction is
off-grid (leaves the row or column range) or points to an "S"/"E"/" "
neighbor.  The off-grid column bound is the current row's length, matching
the source's len(p_grid[p_row]). -/
def offGridOrOpen (g : Grid) (r c : Nat) (d : Int × Int) : Bool :=
  decide ((r : Int) + d.1 < 0) || decide ((c : Int) + d.2 < 0) ||
  decide ((r : Int) + d.1 ≥ (g.length : Int)) ||
  decide ((c : Int) + d.2 ≥ ((g.getD r []).length : Int)) ||
  openNeighbor (gget g ((r : Int) + d.1).toNat ((c : Int) + d.2).toNat)

/-- Specification-side reading of a distance candidate contributed by a
neighbor labeled s: 1 from the start cell, n + 1 from a label that parses
as the integer n (the amended reading allows any sign). -/
def neighborCandidate (s : String) (v : Int) : Prop :=
  (s = "S" ∧ v = 1) ∨ (s ≠ "S" ∧ ∃ n, pyInt s = some n ∧ v = n + 1)

/-- The two grids have the same number of rows and the same row lengths. -/
def ShapeEq (g g' : Grid) : Prop :=
  g'.length = g.length ∧ ∀ r, (g'.getD r []).length = (g.getD r []).length

/-- Every wall cell of g is still a wall cell in g'. -/
def WallsLe (g g' : Grid) : Prop :=
  ∀ r c, gget g r c = "X" → gget g' r c = "X"

theorem list_set_getD_self {α : Type} (d : α) :
    ∀ (l : List α) (i : Nat), l.set i (l.getD i d) = l := by
  intro l
  induction l with
  | nil => intro i; rfl
  | cons x xs ih =>
    intro i
    cases i with
    | zero => rfl
    | succ j => simpa using ih j

theorem list_set_oob {α : Type} {l : List α} {i : Nat} (h : l.length ≤ i) (v : α) :
    l.set i v = l :=
  List.set_eq_of_length_le h

theorem list_getD_set_ne {α : Type} (i j : Nat) (h : i ≠ j) (l : List α) (v : α) (d : α) :
    (l.set i v).getD j d = l.getD j d := by
  induction l generalizing i j with
  | nil => rfl
  | cons x xs ih =>
    cases i with
    | zero =>
      cases j with
      | zero => exact absurd rfl h
      | succ j2 => rfl
    | succ i2 =>
      cases j with
      | zero => rfl
      | succ j2 => simpa [List.getD] using ih i2 j2 (fun he => h (by omega))

theorem list_getD_set_self {α : Type} (i : Nat) (l : List α) (v : α) (d : α)
    (h : i < l.length) : (l.set i v).getD i d = v := by
  induction l generalizing i with
  | nil => simp at h
  | cons x xs ih =>
    cases i with
    | zero => rfl
    | succ i2 => simpa [List.getD] using ih i2 (by simpa using h)

theorem gset_same_value (g : Grid) (r c : Nat) :
    gset g r c (gget g r c) = g := by
  unfold gset gget
  rw [list_set_getD_self, list_set_getD_self]

theorem gset_length (g : Grid) (r c : Nat) (v : String) :
    (gset g r c v).length = g.length := by
  unfold gset; exact List.length_set ..

theorem gset_row_length (g : Grid) (r c : Nat) (v : String) (i : Nat) :
    ((gset g r c v).getD i []).length = (g.getD i []).length := by
  unfold gset
  by_cases h : r = i
  · subst h
    by_cases hr : r < g.length
    · rw [list_getD_set_self r _ _ _ hr]; exact List.length_set ..
    · rw [list_set_oob (by omega)]
  · rw [list_getD_set_ne r i h]

theorem gget_gset_ne (g : Grid) (r c r2 c2 : Nat) (v : String)
    (h : r ≠ r2 ∨ c ≠ c2) : gget (gset g r c v) r2 c2 = gget g r2 c2 := by
  unfold gset gget
  by_cases hr : r = r2
  · subst hr
    rcases h with h | h
    · exact absurd rfl h
    · by_cases hlt : r < g.length
      · rw [list_getD_set_self r _ _ _ hlt, list_getD_set_ne c c2 h]
      · rw [list_set_oob (by omega)]
  · rw [list_getD_set_ne r r2 hr]

theorem gget_gset_self (g : Grid) (r c : Nat) (v : String)
    (hr : r < g.length) (hc : c < (g.getD r []).length) :
    gget (gset g r c v) r c = v := by
  unfold gset gget
  rw [list_getD_set_self r _ _ _ hr, list_getD_set_self c _ _ _ hc]

theorem shapeEq_refl (g : Grid) : ShapeEq g g := ⟨rfl, fun _ => rfl⟩

theorem shapeEq_trans {g1 g2 g3 : Grid} (h1 : ShapeEq g1 g2) (h2 : ShapeEq g2 g3) :
    ShapeEq g1 g3 := ⟨h2.1.trans h1.1, fun r => (h2.2 r).trans (h1.2 r)⟩

theorem wallsLe_refl (g : Grid) : WallsLe g g := fun _ _ h => h

theorem wallsLe_trans {g1 g2 g3 : Grid} (h1 : WallsLe g1 g2) (h2 : WallsLe g2 g3) :
    WallsLe g1 g3 := fun r c h => h2 r c (h1 r c h)

theorem gset_shapeEq (g : Grid) (r c : Nat) (v : String) :
    ShapeEq g (gset g r c v) :=
  ⟨gset_length g r c v, fun i => gset_row_length g r c v i⟩

theorem mem_cellIndices (g : Grid) (r c : Nat) :
    (r, c) ∈ cellIndices g ↔ r < g.length ∧ c < (g.getD r []).length := by
  unfold cellIndices
  simp only [List.mem_flatMap, List.mem_map, List.mem_range, Prod.mk.injEq]
  constructor
  · rintro ⟨a, ha, b, hb, hab1, hab2⟩
    subst hab1; subst hab2; exact ⟨ha, hb⟩
  · rintro ⟨h1, h2⟩
    exact ⟨r, h1, c, h2, rfl, rfl⟩

theorem cellIndices_eq_of_shapeEq {g g2 : Grid} (h : ShapeEq g g2) :
    cellIndices g2 = cellIndices g := by
  unfold cellIndices
  rw [h.1]
  have he : ∀ r : Nat,
      (List.range ((g2.getD r []).length)).map (fun c => (r, c)) =
      (List.range ((g.getD r []).length)).map (fun c => (r, c)) := by
    intro r; rw [h.2 r]
  rw [funext he]

theorem wallCount_le_of_shapeEq {g g2 : Grid} (hs : ShapeEq g g2) (hw : WallsLe g g2) :
    wallCount g ≤ wallCount g2 := by
  unfold wallCount
  rw [cellIndices_eq_of_shapeEq hs]
  refine List.countP_mono_left (fun rc hm hp => ?_)
  have := hw rc.1 rc.2 (by simpa using hp)
  simpa using this

theorem cellCount_eq_of_shapeEq {g g2 : Grid} (hs : ShapeEq g g2) :
    cellCount g2 = cellCount g := by
  unfold cellCount; rw [cellIndices_eq_of_shapeEq hs]

theorem wallCount_le_cellCount (g : Grid) : wallCount g ≤ cellCount g :=
  List.countP_le_length _

theorem gset_oob (g : Grid) (r c : Nat) (v : String)
    (h : g.length ≤ r ∨ (g.getD r []).length ≤ c) : gset g r c v = g := by
  unfold gset
  rcases h with h | h
  · exact list_set_oob h _
  · rw [list_set_oob h, list_set_getD_self]

theorem gget_oob (g : Grid) (r c : Nat)
    (h : g.length ≤ r ∨ (g.getD r []).length ≤ c) : gget g r c = "" := by
  unfold gget
  rcases h with h | h
  · have hrow : g.getD r [] = [] := List.getD_eq_default g [] h
    rw [hrow]; rfl
  · exact List.getD_eq_default _ "" h

theorem gget_wall_bounds {g : Grid} {r c : Nat} (h : gget g r c = "X") :
    r < g.length ∧ c < (g.getD r []).length := by
  by_contra hb
  push_neg at hb
  rcases Nat.lt_or_ge r g.length with hr | hr
  · have := gget_oob g r c (Or.inr (hb hr))
    rw [this] at h; exact absurd h (by decide)
  · have := gget_oob g r c (Or.inl hr)
    rw [this] at h; exact absurd h (by decide)

theorem wallsLe_gset_X (g : Grid) (r c : Nat) : WallsLe g (gset g r c "X") := by
  intro r2 c2 h
  by_cases he : r = r2 ∧ c = c2
  · rcases he with ⟨he1, he2⟩; subst he1; subst he2
    rcases Nat.lt_or_ge r g.length with hr | hr
    · rcases Nat.lt_or_ge c (g.getD r []).length with hc | hc
      · exact gget_gset_self g r c "X" hr hc
      · rw [gset_oob g r c "X" (Or.inr hc)]; exact h
    · rw [gset_oob g r c "X" (Or.inl hr)]; exact h
  · rw [gget_gset_ne g r c r2 c2 "X" (by tauto)]; exact h

theorem wallsLe_gset_of_ne {g : Grid} {r c : Nat} (v : String)
    (h : gget g r c ≠ "X") : WallsLe g (gset g r c v) := by
  intro r2 c2 h2
  by_cases he : r = r2 ∧ c = c2
  · rcases he with ⟨he1, he2⟩; subst he1; subst he2; exact absurd h2 h
  · rw [gget_gset_ne g r c r2 c2 v (by tauto)]; exact h2

theorem visitor_for_path_preserves (g : Grid) (r c : Nat) :
    ShapeEq g (visitor_for_path g r c).2 ∧ WallsLe g (visitor_for_path g r c).2 := by
  unfold visitor_for_path
  by_cases h : visitor_for_adjacency g r c = 1
  · rw [if_pos h]
    exact ⟨gset_shapeEq g r c "X", wallsLe_gset_X g r c⟩
  · rw [if_neg h]
    exact ⟨shapeEq_refl g, wallsLe_refl g⟩

theorem visitor_for_path_zero (g : Grid) (r c : Nat)
    (h : (visitor_for_path g r c).1 = 0) : (visitor_for_path g r c).2 = g := by
  unfold visitor_for_path at h ⊢
  by_cases ha : visitor_for_adjacency g r c = 1
  · rw [if_pos ha] at h; simp at h
  · rw [if_neg ha]

theorem visitor_for_path_length_preserves (g : Grid) (r c : Nat) :
    ShapeEq g (visitor_for_path_length g r c).2 ∧
    WallsLe g (visitor_for_path_length g r c).2 := by
  unfold visitor_for_path_length
  by_cases hm : gget g r c ∈ (["X", "S", "E"] : List String)
  · rw [if_pos hm]; exact ⟨shapeEq_refl g, wallsLe_refl g⟩
  · rw [if_neg hm]
    by_cases hsp : gget g r c = " "
    · rw [if_pos hsp]
      cases hl : adjacentLengths g r c with
      | nil => exact ⟨shapeEq_refl g, wallsLe_refl g⟩
      | cons x xs =>
        refine ⟨gset_shapeEq .., wallsLe_gset_of_ne _ (by rw [hsp]; decide)⟩
    · rw [if_neg hsp]
      exact ⟨shapeEq_refl g, wallsLe_refl g⟩

theorem visitor_for_path_length_zero (g : Grid) (r c : Nat)
    (h : (visitor_for_path_length g r c).1 = 0) :
    (visitor_for_path_length g r c).2 = g := by
  unfold visitor_for_path_length at h ⊢
  by_cases hm : gget g r c ∈ (["X", "S", "E"] : List String)
  · rw [if_pos hm]
  · rw [if_neg hm] at h ⊢
    cases hl : (if gget g r c = " " then adjacentLengths g r c else []) with
    | nil => rfl
    | cons x xs =>
      rw [hl] at h
      simp only at h
      by_cases hne : toString (pyMin x xs) ≠ gget g r c
      · rw [if_pos hne] at h; exact absurd h (by decide)
      · push_neg at hne
        simp only
        rw [hne, gset_same_value]

theorem visitCells_preserves {f : Grid → Nat → Nat → Nat × Grid}
    (hf : ∀ g r c, ShapeEq g (f g r c).2 ∧ WallsLe g (f g r c).2) :
    ∀ (l : List (Nat × Nat)) (g : Grid),
      ShapeEq g (visitCells f l g).2 ∧ WallsLe g (visitCells f l g).2 := by
  intro l
  induction l with
  | nil => intro g; exact ⟨shapeEq_refl g, wallsLe_refl g⟩
  | cons rc rest ih =>
    intro g
    have h1 := hf g rc.1 rc.2
    have h2 := ih (f g rc.1 rc.2).2
    exact ⟨shapeEq_trans h1.1 h2.1, wallsLe_trans h1.2 h2.2⟩

theorem visitCells_zero {f : Grid → Nat → Nat → Nat × Grid}
    (hf0 : ∀ g r c, (f g r c).1 = 0 → (f g r c).2 = g) :
    ∀ (l : List (Nat × Nat)) (g : Grid), (visitCells f l g).1 = 0 →
      (visitCells f l g).2 = g ∧ ∀ rc ∈ l, (f g rc.1 rc.2).1 = 0 := by
  intro l
  induction l with
  | nil => intro g _; exact ⟨rfl, by simp⟩
  | cons rc rest ih =>
    intro g h
    unfold visitCells at h
    have hhead : (f g rc.1 rc.2).1 = 0 := by omega
    have hsame : (f g rc.1 rc.2).2 = g := hf0 g rc.1 rc.2 hhead
    have htail : (visitCells f rest (f g rc.1 rc.2).2).1 = 0 := by omega
    rw [hsame] at htail
    have := ih g htail
    refine ⟨?_, ?_⟩
    · show (visitCells f rest (f g rc.1 rc.2).2).2 = g
      rw [hsame]; exact this.1
    · intro rc2 hm
      rcases List.mem_cons.mp hm with hm | hm
      · subst hm; exact hhead
      · exact this.2 rc2 hm

theorem pass_zero {f : Grid → Nat → Nat → Nat × Grid}
    (hf0 : ∀ g r c, (f g r c).1 = 0 → (f g r c).2 = g) (g : Grid)
    (h : (apply_visitor_pass g f).1 = 0) :
    (apply_visitor_pass g f).2 = g ∧
    ∀ r c, r < g.length → c < (g.getD r []).length → (f g r c).1 = 0 := by
  have := visitCells_zero hf0 (cellIndices g) g h
  refine ⟨this.1, fun r c hr hc => ?_⟩
  exact this.2 (r, c) ((mem_cellIndices g r c).mpr ⟨hr, hc⟩)

theorem until_stable_fix {f : Grid → Nat → Nat → Nat × Grid}
    (hf0 : ∀ g r c, (f g r c).1 = 0 → (f g r c).2 = g) :
    ∀ (fuel : Nat) (g g2 : Grid), apply_visitor_until_stable fuel g f = some g2 →
      apply_visitor_pass g2 f = (0, g2) := by
  intro fuel
  induction fuel with
  | zero => intro g g2 h; exact absurd h (by simp [apply_visitor_until_stable])
  | succ fuel ih =>
    intro g g2 h
    unfold apply_visitor_until_stable at h
    by_cases hz : (apply_visitor_pass g f).1 = 0
    · rw [if_pos hz] at h
      have hg2 : (apply_visitor_pass g f).2 = g2 := by simpa using h
      have hsame := (pass_zero hf0 g hz).1
      have hgg : g2 = g := by rw [← hg2, hsame]
      subst hgg
      have : apply_visitor_pass g2 f = ((apply_visitor_pass g2 f).1, (apply_visitor_pass g2 f).2) := rfl
      rw [this, hz, hsame]
    · rw [if_neg hz] at h
      exact ih _ g2 h

theorem until_stable_preserves {f : Grid → Nat → Nat → Nat × Grid}
    (hf : ∀ g r c, ShapeEq g (f g r c).2 ∧ WallsLe g (f g r c).2) :
    ∀ (fuel : Nat) (g g2 : Grid), apply_visitor_until_stable fuel g f = some g2 →
      ShapeEq g g2 ∧ WallsLe g g2 := by
  intro fuel
  induction fuel with
  | zero => intro g g2 h; exact absurd h (by simp [apply_visitor_until_stable])
  | succ fuel ih =>
    intro g g2 h
    unfold apply_visitor_until_stable at h
    have hstep : ShapeEq g (apply_visitor_pass g f).2 ∧ WallsLe g (apply_visitor_pass g f).2 :=
      visitCells_preserves hf (cellIndices g) g
    by_cases hz : (apply_visitor_pass g f).1 = 0
    · rw [if_pos hz] at h
      have hg2 : (apply_visitor_pass g f).2 = g2 := by simpa using h
      rw [hg2] at hstep
      exact hstep
    · rw [if_neg hz] at h
      have hrest := ih _ g2 h
      exact ⟨shapeEq_trans hstep.1 hrest.1, wallsLe_trans hstep.2 hrest.2⟩

theorem break_loops_getD (p : String) :
    ∀ (g : Grid) (i : Nat), (break_loops g p).getD i [] = (g.getD i []).map (breakCell p) := by
  intro g
  unfold break_loops
  induction g with
  | nil => intro i; cases i <;> rfl
  | cons row rest ih =>
    intro i
    cases i with
    | zero => rfl
    | succ j => simpa [List.getD] using ih j

theorem list_map_getD (f : String → String) :
    ∀ (l : List String) (c : Nat), c < l.length → (l.map f).getD c "" = f (l.getD c "") := by
  intro l
  induction l with
  | nil => intro c h; simp at h
  | cons x xs ih =>
    intro c h
    cases c with
    | zero => rfl
    | succ c2 => simpa [List.getD] using ih c2 (by simpa using h)

theorem gget_break_loops (g : Grid) (p : String) (r c : Nat)
    (hc : c < (g.getD r []).length) :
    gget (break_loops g p) r c = breakCell p (gget g r c) := by
  unfold gget
  rw [break_loops_getD p g r]
  exact list_map_getD (breakCell p) (g.getD r []) c hc

theorem break_loops_shapeEq (g : Grid) (p : String) : ShapeEq g (break_loops g p) := by
  constructor
  · unfold break_loops; exact List.length_map ..
  · intro r; rw [break_loops_getD p g r]; exact List.length_map ..

theorem breakCell_wall (p : String) : breakCell p "X" = "X" := by
  unfold breakCell
  by_cases h : "X" = p
  · rw [if_pos h]
  · rw [if_neg h]
    have : pyInt "X" = none := by decide
    rw [this]

theorem break_loops_wallsLe (g : Grid) (p : String) : WallsLe g (break_loops g p) := by
  intro r c h
  have hb := gget_wall_bounds h
  rw [gget_break_loops g p r c hb.2, h]
  exact breakCell_wall p

theorem outerStep_inr_preserves {fi : Nat} {g g2 : Grid}
    (h : outerStep fi g = some (Sum.inr g2)) : ShapeEq g g2 ∧ WallsLe g g2 := by
  unfold outerStep at h
  cases h1 : apply_visitor_until_stable fi g visitor_for_path with
  | none => rw [h1] at h; exact absurd h (by simp)
  | some g1 =>
    rw [h1] at h
    dsimp only at h
    have hp1 := until_stable_preserves visitor_for_path_preserves fi g g1 h1
    by_cases hA :
        apply_visitor_compute_max g1 (fun h r c => (visitor_for_adjacency h r c : Int)) > 2
    · rw [if_pos hA] at h
      cases h2 : apply_visitor_until_stable fi g1 visitor_for_path_length with
      | none => rw [h2] at h; exact absurd h (by simp)
      | some gm =>
        rw [h2] at h
        dsimp only at h
        have hp2 := until_stable_preserves visitor_for_path_length_preserves fi g1 gm h2
        have hg2 : break_loops gm
            (toString (apply_visitor_compute_max gm visitor_for_length)) = g2 := by
          have := h
          simp only [Option.some.injEq] at this
          exact Sum.inr.inj this
        have hp3 : ShapeEq gm g2 ∧ WallsLe gm g2 := by
          rw [← hg2]
          exact ⟨break_loops_shapeEq gm _, break_loops_wallsLe gm _⟩
        exact ⟨shapeEq_trans (shapeEq_trans hp1.1 hp2.1) hp3.1,
               wallsLe_trans (wallsLe_trans hp1.2 hp2.2) hp3.2⟩
    · rw [if_neg hA] at h
      simp at h

theorem foldl_max_init_le : ∀ (l : List Int) (a : Int), a ≤ l.foldl max a := by
  intro l
  induction l with
  | nil => intro a; exact le_refl a
  | cons x xs ih =>
    intro a
    exact le_trans (le_max_left a x) (ih (max a x))

theorem foldl_max_le_of_mem : ∀ (l : List Int) (a x : Int), x ∈ l → x ≤ l.foldl max a := by
  intro l
  induction l with
  | nil => intro a x h; simp at h
  | cons y ys ih =>
    intro a x h
    rcases List.mem_cons.mp h with h | h
    · subst h
      exact le_trans (le_max_right a x) (foldl_max_init_le ys (max a x))
    · exact ih (max a y) x h

theorem foldl_max_eq_or_mem : ∀ (l : List Int) (a : Int),
    l.foldl max a = a ∨ l.foldl max a ∈ l := by
  intro l
  induction l with
  | nil => intro a; left; rfl
  | cons y ys ih =>
    intro a
    rcases ih (max a y) with h | h
    · rcases max_choice a y with hm | hm
      · left; show ys.foldl max (max a y) = a; rw [h, hm]
      · right; show ys.foldl max (max a y) ∈ y :: ys; rw [h, hm]; exact List.mem_cons_self ..
    · right; exact List.mem_cons_of_mem y h

theorem compute_max_as_foldl (g : Grid) (f : Grid → Nat → Nat → Int) :
    apply_visitor_compute_max g f =
      ((cellIndices g).map (fun rc => f g rc.1 rc.2)).foldl max 0 := by
  unfold apply_visitor_compute_max
  exact (List.foldl_map ..).symm

theorem countP_four {α : Type} (p : α → Bool) (a b c d : α) :
    [a, b, c, d].countP p =
      (if p a then 1 else 0) + (if p b then 1 else 0) +
      (if p c then 1 else 0) + (if p d then 1 else 0) := by
  cases hpa : p a <;> cases hpb : p b <;> cases hpc : p c <;> cases hpd : p d <;>
    simp [List.countP, List.countP.go, hpa, hpb, hpc, hpd]

theorem offGridOrOpen_up (g : Grid) (r c : Nat) (hr : r < g.length)
    (hc : c < (g.getD r []).length) :
    offGridOrOpen g r c (-1, 0) =
      (decide (r = 0) || openNeighbor (gget g (r - 1) c)) := by
  by_cases h0 : r = 0
  · subst h0
    unfold offGridOrOpen
    dsimp only
    simp
  · have e1 : ((r : Int) + -1).toNat = r - 1 := by omega
    have e2 : ((c : Int) + 0).toNat = c := by omega
    have c1 : ¬((r : Int) + -1 < 0) := by omega
    have c2 : ¬((c : Int) + 0 < 0) := by omega
    have c3 : ¬((r : Int) + -1 ≥ (g.length : Int)) := by omega
    have c4 : ¬((c : Int) + 0 ≥ ((g.getD r []).length : Int)) := by omega
    unfold offGridOrOpen
    dsimp only
    rw [e1, e2, decide_eq_false c1, decide_eq_false c2, decide_eq_false c3,
        decide_eq_false c4, decide_eq_false h0]
    simp

theorem offGridOrOpen_left (g : Grid) (r c : Nat) (hr : r < g.length)
    (hc : c < (g.getD r []).length) :
    offGridOrOpen g r c (0, -1) =
      (decide (c = 0) || openNeighbor (gget g r (c - 1))) := by
  by_cases h0 : c = 0
  · subst h0
    unfold offGridOrOpen
    dsimp only
    simp
  · have e1 : ((r : Int) + 0).toNat = r := by omega
    have e2 : ((c : Int) + -1).toNat = c - 1 := by omega
    have c1 : ¬((r : Int) + 0 < 0) := by omega
    have c2 : ¬((c : Int) + -1 < 0) := by omega
    have c3 : ¬((r : Int) + 0 ≥ (g.length : Int)) := by omega
    have c4 : ¬((c : Int) + -1 ≥ ((g.getD r []).length : Int)) := by omega
    unfold offGridOrOpen
    dsimp only
    rw [e1, e2, decide_eq_false c1, decide_eq_false c2, decide_eq_false c3,
        decide_eq_false c4, decide_eq_false h0]
    simp

theorem offGridOrOpen_right (g : Grid) (r c : Nat) (hr : r < g.length)
    (hc : c < (g.getD r []).length) :
    offGridOrOpen g r c (0, 1) =
      (decide (c + 1 ≥ (g.getD r []).length) || openNeighbor (gget g r (c + 1))) := by
  by_cases h0 : c + 1 ≥ (g.getD r []).length
  · have hs : ((c : Int) + 1 ≥ ((g.getD r []).length : Int)) := by omega
    unfold offGridOrOpen
    dsimp only
    rw [decide_eq_true hs, decide_eq_true h0]
    simp
  · have e1 : ((r : Int) + 0).toNat = r := by omega
    have e2 : ((c : Int) + 1).toNat = c + 1 := by omega
    have c1 : ¬((r : Int) + 0 < 0) := by omega
    have c2 : ¬((c : Int) + 1 < 0) := by omega
    have c3 : ¬((r : Int) + 0 ≥ (g.length : Int)) := by omega
    have c4 : ¬((c : Int) + 1 ≥ ((g.getD r []).length : Int)) := by omega
    unfold offGridOrOpen
    dsimp only
    rw [e1, e2, decide_eq_false c1, decide_eq_false c2, decide_eq_false c3,
        decide_eq_false c4, decide_eq_false h0]
    simp

theorem offGridOrOpen_down (g : Grid) (r c : Nat) (hr : r < g.length)
    (hc : c < (g.getD r []).length) :
    offGridOrOpen g r c (1, 0) =
      (decide (r + 1 ≥ g.length) || openNeighbor (gget g (r + 1) c)) := by
  by_cases h0 : r + 1 ≥ g.length
  · have hs : ((r : Int) + 1 ≥ (g.length : Int)) := by omega
    unfold offGridOrOpen
    dsimp only
    rw [decide_eq_true hs, decide_eq_true h0]
    simp
  · have e1 : ((r : Int) + 1).toNat = r + 1 := by omega
    have e2 : ((c : Int) + 0).toNat = c := by omega
    have c1 : ¬((r : Int) + 1 < 0) := by omega
    have c2 : ¬((c : Int) + 0 < 0) := by omega
    have c3 : ¬((r : Int) + 1 ≥ (g.length : Int)) := by omega
    have c4 : ¬((c : Int) + 0 ≥ ((g.getD r []).length : Int)) := by omega
    unfold offGridOrOpen
    dsimp only
    rw [e1, e2, decide_eq_false c1, decide_eq_false c2, decide_eq_false c3,
        decide_eq_false c4, decide_eq_false h0]
    simp

theorem ite_decide_or (P : Prop) [Decidable P] (b : Bool) :
    (if (decide P || b) = true then (1 : Nat) else 0) =
      if P then 1 else if b = true then 1 else 0 := by
  by_cases hp : P <;> cases b <;> simp [hp]

theorem adjacency_eq_spec_count (g : Grid) (r c : Nat) (hr : r < g.length)
    (hc : c < (g.getD r []).length) (hX : gget g r c ≠ "X") :
    visitor_for_adjacency g r c = adjDirs.countP (offGridOrOpen g r c) := by
  unfold adjDirs
  rw [countP_four, offGridOrOpen_up g r c hr hc, offGridOrOpen_left g r c hr hc,
      offGridOrOpen_right g r c hr hc, offGridOrOpen_down g r c hr hc,
      ite_decide_or, ite_decide_or, ite_decide_or, ite_decide_or]
  unfold visitor_for_adjacency
  rw [if_neg hX]

theorem visitor_for_adjacency_le_four (g : Grid) (r c : Nat) :
    visitor_for_adjacency g r c ≤ 4 := by
  unfold visitor_for_adjacency
  split_ifs <;> omega

theorem visitor_for_adjacency_wall (g : Grid) (r c : Nat) (h : gget g r c = "X") :
    visitor_for_adjacency g r c = 0 := by
  unfold visitor_for_adjacency
  rw [if_pos h]

theorem digitChar_ne_space (n : Nat) : Nat.digitChar n ≠ ' ' := by
  rcases Nat.lt_or_ge n 16 with h | h
  · interval_cases n <;> decide
  · unfold Nat.digitChar
    repeat rw [if_neg (by omega)]
    decide

theorem toDigitsCore_no_space (b : Nat) :
    ∀ (f n : Nat) (l : List Char), (∀ ch ∈ l, ch ≠ ' ') →
      ∀ ch ∈ Nat.toDigitsCore b f n l, ch ≠ ' ' := by
  intro f
  induction f with
  | zero => intro n l hl ch hch; exact hl ch hch
  | succ f ih =>
    intro n l hl ch hch
    unfold Nat.toDigitsCore at hch
    by_cases hn : n / b = 0
    · rw [if_pos hn] at hch
      rcases List.mem_cons.mp hch with h | h
      · subst h; exact digitChar_ne_space _
      · exact hl ch h
    · rw [if_neg hn] at hch
      refine ih (n / b) (Nat.digitChar (n % b) :: l) ?_ ch hch
      intro c2 hc2
      rcases List.mem_cons.mp hc2 with h | h
      · subst h; exact digitChar_ne_space _
      · exact hl c2 h

theorem natRepr_ne_space (n : Nat) : Nat.repr n ≠ " " := by
  unfold Nat.repr Nat.toDigits
  intro h
  have hd : (List.asString (Nat.toDigitsCore 10 (n + 1) n [])).data = (" " : String).data := by
    rw [h]
  have hmem : ' ' ∈ Nat.toDigitsCore 10 (n + 1) n [] := by
    have : (List.asString (Nat.toDigitsCore 10 (n + 1) n [])).data =
        Nat.toDigitsCore 10 (n + 1) n [] := by
      simp [List.asString]
    rw [this] at hd
    rw [hd]
    exact List.mem_singleton.mpr rfl
  exact toDigitsCore_no_space 10 (n + 1) n [] (by simp) ' ' hmem rfl

theorem intToString_ne_space (n : Int) : toString n ≠ " " := by
  show Int.repr n ≠ " "
  cases n with
  | ofNat m => exact natRepr_ne_space m
  | negSucc m =>
    show "-" ++ (m + 1).repr ≠ " "
    intro h
    have : ("-" ++ (m + 1).repr).data = (" " : String).data := by rw [h]
    rw [String.data_append] at this
    simp at this

theorem pyMin_le_head : ∀ (xs : List Int) (x : Int), pyMin x xs ≤ x := by
  intro xs
  induction xs with
  | nil => intro x; exact le_refl x
  | cons y ys ih =>
    intro x
    exact le_trans (ih (min x y)) (min_le_left x y)

theorem pyMin_mem : ∀ (xs : List Int) (x : Int), pyMin x xs ∈ x :: xs := by
  intro xs
  induction xs with
  | nil => intro x; exact List.mem_singleton.mpr rfl
  | cons y ys ih =>
    intro x
    have h := ih (min x y)
    rcases List.mem_cons.mp h with h | h
    · rcases min_choice x y with hm | hm
      · rw [show pyMin x (y :: ys) = pyMin (min x y) ys from rfl, h, hm]
        exact List.mem_cons_self ..
      · rw [show pyMin x (y :: ys) = pyMin (min x y) ys from rfl, h, hm]
        exact List.mem_cons_of_mem x (List.mem_cons_self ..)
    · exact List.mem_cons_of_mem x (List.mem_cons_of_mem y h)

theorem pyMin_le : ∀ (xs : List Int) (x y : Int), y ∈ x :: xs → pyMin x xs ≤ y := by
  intro xs
  induction xs with
  | nil =>
    intro x y h
    rw [List.mem_singleton.mp h]
    exact le_refl _
  | cons z zs ih =>
    intro x y h
    show pyMin (min x z) zs ≤ y
    rcases List.mem_cons.mp h with h | h
    · rw [h]
      exact le_trans (pyMin_le_head zs (min x z)) (min_le_left x z)
    · rcases List.mem_cons.mp h with h | h
      · rw [h]
        exact le_trans (pyMin_le_head zs (min x z)) (min_le_right x z)
      · exact ih (min x z) y (List.mem_cons_of_mem _ h)

theorem lengthCandidate_spec (s : String) (v : Int) :
    lengthCandidate s = some v ↔ neighborCandidate s v := by
  unfold lengthCandidate neighborCandidate
  by_cases h : s = "S"
  · rw [if_pos h]
    simp [h, eq_comm]
  · rw [if_neg h]
    cases hp : pyInt s with
    | none => simp [h, hp]
    | some n => simp [h, hp, eq_comm]

theorem mem_ite_toList (b : Prop) [Decidable b] (o : Option Int) (v : Int) :
    (v ∈ if b then o.toList else []) ↔ b ∧ o = some v := by
  by_cases hb : b <;> simp [hb, Option.mem_toList, Option.mem_def, eq_comm]

theorem mem_adjacentLengths (g : Grid) (r c : Nat) (v : Int) :
    v ∈ adjacentLengths g r c ↔
      (1 ≤ r ∧ neighborCandidate (gget g (r - 1) c) v) ∨
      (1 ≤ c ∧ neighborCandidate (gget g r (c - 1)) v) ∨
      (c + 1 < (g.getD r []).length ∧ neighborCandidate (gget g r (c + 1)) v) ∨
      (r + 1 < g.length ∧ neighborCandidate (gget g (r + 1) c) v) := by
  unfold adjacentLengths
  simp only [List.mem_append, mem_ite_toList, lengthCandidate_spec, ge_iff_le]
  tauto

/-- C1 counterexample: the dead-end rule does overwrite a START cell.  In
the grid below the "S" cell at (1,1) has exactly one open direction (down),
so visitor_for_path turns it into a WALL, contradicting the claim that the
dead-end rule never changes "S" cells. -/
theorem C1_counterexample :
    gget [["X", "X", "X"], ["X", "S", "X"], ["X", " ", "X"]] 1 1 = "S" ∧
    visitor_for_path [["X", "X", "X"], ["X", "S", "X"], ["X", " ", "X"]] 1 1 =
      (1, [["X", "X", "X"], ["X", "X", "X"], ["X", " ", "X"]]) := by decide

/-- C1 (amended): the distance rule (visitor_for_path_length) never changes
a cell holding "X", "S" or "E"; the dead-end rule (visitor_for_path) never
changes a WALL cell, and it leaves an "S"/"E" cell unchanged only as long
as that cell's adjacency count differs from 1 (a START/END cell with
exactly one open direction is overwritten with a WALL, as the
counterexample shows). -/
theorem C1_rules_protect_labels (g : Grid) (r c : Nat) :
    (gget g r c ∈ (["X", "S", "E"] : List String) → visitor_for_path_length g r c = (0, g)) ∧
    (gget g r c = "X" → visitor_for_path g r c = (0, g)) ∧
    ((gget g r c = "S" ∨ gget g r c = "E") → visitor_for_adjacency g r c ≠ 1 →
      visitor_for_path g r c = (0, g)) := by
  refine ⟨?_, ?_, ?_⟩
  · intro h
    unfold visitor_for_path_length
    rw [if_pos h]
  · intro h
    unfold visitor_for_path
    rw [visitor_for_adjacency_wall g r c h]
    norm_num
  · intro _ h
    unfold visitor_for_path
    rw [if_neg h]

theorem C1_witness :
    visitor_for_path_length [["X"]] 0 0 = (0, [["X"]]) ∧
    visitor_for_path [["X"]] 0 0 = (0, [["X"]]) :=
  ⟨(C1_rules_protect_labels [["X"]] 0 0).1 (by decide),
   (C1_rules_protect_labels [["X"]] 0 0).2.1 (by decide)⟩

/-- C4 counterexample: apply_visitor_compute_max starts its running maximum
at 0, so on a grid whose only cell has RawDistanceRule value -1 it returns
0, not the maximum value -1 of the rule over all cells. -/
theorem C4_counterexample :
    apply_visitor_compute_max [["X"]] visitor_for_length = 0 ∧
    visitor_for_length [["X"]] 0 0 = -1 := by decide

/-- C4 (amended): for every grid and pure query rule,
apply_visitor_compute_max returns an upper bound of the rule over all
cells, and its value is either 0 (the initial accumulator, also returned
when every cell value is negative or the grid is empty) or a value the
rule attains at some cell; hence it equals the true maximum whenever some
cell value is at least 0. -/
theorem C4_compute_max_spec (g : Grid) (f : Grid → Nat → Nat → Int) :
    (∀ r c, r < g.length → c < (g.getD r []).length →
      f g r c ≤ apply_visitor_compute_max g f) ∧
    (apply_visitor_compute_max g f = 0 ∨
      ∃ r c, r < g.length ∧ c < (g.getD r []).length ∧
        f g r c = apply_visitor_compute_max g f) := by
  rw [compute_max_as_foldl]
  constructor
  · intro r c hr hc
    apply foldl_max_le_of_mem
    exact List.mem_map.mpr ⟨(r, c), (mem_cellIndices g r c).mpr ⟨hr, hc⟩, rfl⟩
  · rcases foldl_max_eq_or_mem ((cellIndices g).map fun rc => f g rc.1 rc.2) 0 with h | h
    · left; exact h
    · right
      rcases List.mem_map.mp h with ⟨⟨a, b⟩, hmem, heq⟩
      have hb := (mem_cellIndices g a b).mp hmem
      exact ⟨a, b, hb.1, hb.2, heq⟩

theorem C4_witness :
    visitor_for_length [["3"]] 0 0 ≤ apply_visitor_compute_max [["3"]] visitor_for_length :=
  (C4_compute_max_spec [["3"]] visitor_for_length).1 0 0 (by decide) (by decide)

/-- C5 counterexample: erosion converges (a full dead-end pass makes zero
changes) on a grid whose center cell is OPEN with adjacency 0 - every
neighbor is a wall.  That OPEN cell is not START or END and its adjacency
value is below 2, contradicting the claimed bound. -/
theorem C5_counterexample :
    apply_visitor_until_stable 1 [["X", "X", "X"], ["X", " ", "X"], ["X", "X", "X"]]
        visitor_for_path =
      some [["X", "X", "X"], ["X", " ", "X"], ["X", "X", "X"]] ∧
    gget [["X", "X", "X"], ["X", " ", "X"], ["X", "X", "X"]] 1 1 = " " ∧
    visitor_for_adjacency [["X", "X", "X"], ["X", " ", "X"], ["X", "X", "X"]] 1 1 = 0 := by
  decide

/-- C5 (amended): immediately after apply_visitor_until_stable with the
dead-end rule converges, no cell of the resulting grid has adjacency value
exactly 1: every cell has AdjacencyRule value 0 or at least 2 (isolated
cells of adjacency 0 survive erosion, so the claimed lower bound 2 only
fails in that case; START/END give no protection). -/
theorem C5_no_dead_end_after_erosion (fuel : Nat) (g g1 : Grid)
    (h : apply_visitor_until_stable fuel g visitor_for_path = some g1) :
    ∀ r c, r < g1.length → c < (g1.getD r []).length →
      visitor_for_adjacency g1 r c = 0 ∨ 2 ≤ visitor_for_adjacency g1 r c := by
  have hfix := until_stable_fix visitor_for_path_zero fuel g g1 h
  have hz : (apply_visitor_pass g1 visitor_for_path).1 = 0 := by rw [hfix]
  have hcells := (pass_zero visitor_for_path_zero g1 hz).2
  intro r c hr hc
  have hv := hcells r c hr hc
  unfold visitor_for_path at hv
  by_cases ha : visitor_for_adjacency g1 r c = 1
  · rw [if_pos ha] at hv
    simp at hv
  · omega

theorem C5_witness :
    visitor_for_adjacency [["X", "X", "X"], ["X", " ", "X"], ["X", "X", "X"]] 1 1 = 0 ∨
    2 ≤ visitor_for_adjacency [["X", "X", "X"], ["X", " ", "X"], ["X", "X", "X"]] 1 1 :=
  C5_no_dead_end_after_erosion 1 [["X", "X", "X"], ["X", " ", "X"], ["X", "X", "X"]]
    [["X", "X", "X"], ["X", " ", "X"], ["X", "X", "X"]] (by decide) 1 1 (by decide) (by decide)

/-- C6 (confirmed): at every in-bounds coordinate visitor_for_adjacency
returns a value in [0,4] (it is a Nat, so nonnegative by type); a WALL cell
scores 0 regardless of neighbors; a non-wall cell scores exactly the number
of the four orthogonal directions that are off-grid or point to an
"S"/"E"/" " neighbor - a numeric DISTANCE neighbor is not counted, since
openNeighbor accepts only those three labels.  The embedding is a pure
function, reflecting that the source never assigns to the grid here. -/
theorem C6_adjacency_spec (g : Grid) (r c : Nat)
    (hr : r < g.length) (hc : c < (g.getD r []).length) :
    visitor_for_adjacency g r c ≤ 4 ∧
    (gget g r c = "X" → visitor_for_adjacency g r c = 0) ∧
    (gget g r c ≠ "X" →
      visitor_for_adjacency g r c = adjDirs.countP (offGridOrOpen g r c)) :=
  ⟨visitor_for_adjacency_le_four g r c,
   visitor_for_adjacency_wall g r c,
   adjacency_eq_spec_count g r c hr hc⟩

theorem C6_witness :
    visitor_for_adjacency [[" "]] 0 0 ≤ 4 ∧
    visitor_for_adjacency [[" "]] 0 0 = adjDirs.countP (offGridOrOpen [[" "]] 0 0) :=
  ⟨(C6_adjacency_spec [[" "]] 0 0 (by decide) (by decide)).1,
   (C6_adjacency_spec [[" "]] 0 0 (by decide) (by decide)).2.2 (by decide)⟩

/-- C9 (confirmed): if running the dead-end fixed point loop on g stops at
g1, then running it again from g1 stops immediately with the same grid:
the first pass of the second run makes zero changes, so the second run
returns g1 for any positive pass budget. -/
theorem C9_erosion_idempotent (fuel fuel2 : Nat) (g g1 : Grid)
    (h : apply_visitor_until_stable fuel g visitor_for_path = some g1) :
    apply_visitor_until_stable (fuel2 + 1) g1 visitor_for_path = some g1 := by
  have hfix := until_stable_fix visitor_for_path_zero fuel g g1 h
  unfold apply_visitor_until_stable
  rw [hfix]
  norm_num

theorem C9_witness :
    apply_visitor_until_stable 1 [["S", " ", "E"]] visitor_for_path =
      some [["S", " ", "E"]] :=
  C9_erosion_idempotent 1 0 [["S", " ", "E"]] [["S", " ", "E"]] (by decide)

/-- C8 counterexample: break_loops compares the target string before
checking for control labels, so with target "S" the START cell itself is
turned into a WALL, contradicting the claim that "X"/"S"/"E" cells are
unchanged for every target string. -/
theorem C8_counterexample :
    gget [["S"]] 0 0 = "S" ∧ break_loops [["S"]] "S" = [["X"]] := by decide

/-- C8 (amended): after break_loops, a cell whose label equals the target
is "X"; any other cell whose label int()-parses (any sign) is " "; any
other cell keeps its label - in particular "X" cells always stay "X", and
"S"/"E" cells are unchanged provided the target is not that exact label;
and no cell of the resulting grid carries an int()-parsable label. -/
theorem C8_break_loops_spec (g : Grid) (pmax : String) (r c : Nat)
    (hc : c < (g.getD r []).length) :
    (gget g r c = pmax → gget (break_loops g pmax) r c = "X") ∧
    (gget g r c = "X" → gget (break_loops g pmax) r c = "X") ∧
    (gget g r c ≠ pmax → (∃ n, pyInt (gget g r c) = some n) →
      gget (break_loops g pmax) r c = " ") ∧
    (gget g r c ≠ pmax → pyInt (gget g r c) = none →
      gget (break_loops g pmax) r c = gget g r c) ∧
    pyInt (gget (break_loops g pmax) r c) = none := by
  have hb := gget_break_loops g pmax r c hc
  rw [hb]
  unfold breakCell
  refine ⟨?_, ?_, ?_, ?_, ?_⟩
  · intro h
    rw [if_pos h]
  · intro h
    by_cases hp : gget g r c = pmax
    · rw [if_pos hp]
    · rw [if_neg hp, h]
      decide
  · intro h1 h2
    rw [if_neg h1]
    rcases h2 with ⟨n, hn⟩
    rw [hn]
  · intro h1 h2
    rw [if_neg h1, h2]
  · by_cases hp : gget g r c = pmax
    · rw [if_pos hp]
      decide
    · rw [if_neg hp]
      cases hn : pyInt (gget g r c) with
      | some n => show pyInt " " = none; decide
      | none => exact hn

theorem C8_witness : gget (break_loops [["5"]] "7") 0 0 = " " :=
  (C8_break_loops_spec [["5"]] "7" 0 0 (by decide)).2.2.1 (by decide) ⟨5, by decide⟩

/-- C7 counterexample: Python int() parses negative labels, so a neighbor
labeled "-3" contributes the candidate -2 and the OPEN cell is rewritten
to "-2" with changed = 1, while the claim (candidates only from labels
parsing as non-negative integers) predicts no candidate and no change. -/
theorem C7_counterexample :
    pyInt "-3" = some (-3) ∧ (-3 : Int) < 0 ∧
    visitor_for_path_length [[" ", "-3"]] 0 0 = (1, [["-2", "-3"]]) := by decide

/-- C7 (amended): visitor_for_path_length mutates only cells labeled " ":
cells not labeled "X"/"S"/"E"/" " are left unchanged with result 0; for a
" " cell the collected candidate list contains v exactly when one of the
four existing orthogonal neighbors is "S" (v = 1) or parses under int() as
an integer n of any sign (v = n + 1); with no candidates the cell stays
OPEN and the rule reports unchanged; otherwise the rule writes the minimum
candidate as the new label and reports changed (1), since a numeral never
equals the OPEN label. -/
theorem C7_distance_rule_spec (g : Grid) (r c : Nat) :
    (gget g r c ∉ (["X", "S", "E"] : List String) → gget g r c ≠ " " →
      visitor_for_path_length g r c = (0, g)) ∧
    (gget g r c = " " →
      (∀ v : Int, v ∈ adjacentLengths g r c ↔
        (1 ≤ r ∧ neighborCandidate (gget g (r - 1) c) v) ∨
        (1 ≤ c ∧ neighborCandidate (gget g r (c - 1)) v) ∨
        (c + 1 < (g.getD r []).length ∧ neighborCandidate (gget g r (c + 1)) v) ∨
        (r + 1 < g.length ∧ neighborCandidate (gget g (r + 1) c) v)) ∧
      (adjacentLengths g r c = [] → visitor_for_path_length g r c = (0, g)) ∧
      (adjacentLengths g r c ≠ [] → ∃ m : Int, m ∈ adjacentLengths g r c ∧
        (∀ y ∈ adjacentLengths g r c, m ≤ y) ∧
        visitor_for_path_length g r c = (1, gset g r c (toString m)))) := by
  constructor
  · intro h1 h2
    unfold visitor_for_path_length
    rw [if_neg h1, if_neg h2]
  · intro hsp
    have hni : gget g r c ∉ (["X", "S", "E"] : List String) := by
      rw [hsp]; decide
    refine ⟨fun v => mem_adjacentLengths g r c v, ?_, ?_⟩
    · intro he
      unfold visitor_for_path_length
      rw [if_neg hni, if_pos hsp, he]
    · intro hne
      cases hl : adjacentLengths g r c with
      | nil => exact absurd hl hne
      | cons x xs =>
        refine ⟨pyMin x xs, ?_, ?_, ?_⟩
        · exact pyMin_mem xs x
        · intro y hy; exact pyMin_le xs x y hy
        · unfold visitor_for_path_length
          rw [if_neg hni, if_pos hsp, hl]
          dsimp only
          have hch : toString (pyMin x xs) ≠ gget g r c := by
            rw [hsp]; exact intToString_ne_space _
          rw [if_pos hch]

theorem C7_witness :
    visitor_for_path_length [[" ", "S"]] 0 0 = (1, [["1", "S"]]) := by
  obtain ⟨m, hm, hmin, he⟩ :=
    ((C7_distance_rule_spec [[" ", "S"]] 0 0).2 (by decide)).2.2 (by decide)
  rw [show adjacentLengths [[" ", "S"]] 0 0 = [1] from by decide] at hm
  rw [List.mem_singleton.mp hm] at he
  rw [he]
  decide

/-- C3 counterexample: on the grid [["S", "X"]] one full outer iteration
neither exits (the measured max adjacency is 3 > 2) nor adds a wall: no
distance propagates, the max distance is the clamped 0, and break_loops
with target "0" matches no cell, so the iteration returns the very same
grid and the wall count stays 1. -/
theorem C3_counterexample :
    outerStep 1 [["S", "X"]] = some (Sum.inr [["S", "X"]]) ∧
    wallCount [["S", "X"]] = 1 := by decide

/-- C3 (amended): after one full outer iteration that continues (erode,
measure adjacency above 2, propagate, measure distance, break loops), the
number of WALL cells never decreases; it need not strictly increase (see
the counterexample), so the original strict claim holds only weakened to
monotonicity. -/
theorem C3_wall_count_monotone (fi : Nat) (g g2 : Grid)
    (h : outerStep fi g = some (Sum.inr g2)) : wallCount g ≤ wallCount g2 := by
  have hp := outerStep_inr_preserves h
  exact wallCount_le_of_shapeEq hp.1 hp.2

theorem C3_witness : wallCount [["S", "X"]] ≤ wallCount [["S", "X"]] :=
  C3_wall_count_monotone 1 [["S", "X"]] [["S", "X"]] (by decide)

/-- C10 (confirmed): the core functions of multi_phase_html.py are
observationally equivalent to the same-named functions of multi_phase.py:
the two files contain the same code for all seven functions, the only
difference being calls to the SVG renderer, which writes output but only
reads the grid; consequently the two main loops transform any input grid
identically. -/
theorem C10_html_core_equivalent :
    Html.visitor_for_adjacency = visitor_for_adjacency ∧
    Html.visitor_for_length = visitor_for_length ∧
    Html.visitor_for_path = visitor_for_path ∧
    Html.visitor_for_path_length = visitor_for_path_length ∧
    Html.apply_visitor_compute_max = apply_visitor_compute_max ∧
    Html.apply_visitor_until_stable = apply_visitor_until_stable ∧
    Html.break_loops = break_loops ∧
    Html.mainLoop = mainLoop := by
  have h1 : Html.visitor_for_adjacency = visitor_for_adjacency := rfl
  have h2 : Html.visitor_for_length = visitor_for_length := rfl
  have h3 : Html.visitor_for_path = visitor_for_path := by
    funext g r c
    unfold Html.visitor_for_path visitor_for_path
    rw [h1]
  have h4 : Html.visitor_for_path_length = visitor_for_path_length := by
    have hc : Html.lengthCandidate = lengthCandidate := rfl
    have ha : Html.adjacentLengths = adjacentLengths := by
      funext g r c
      unfold Html.adjacentLengths adjacentLengths
      rw [hc]
    funext g r c
    unfold Html.visitor_for_path_length visitor_for_path_length
    rw [ha]
  have h5 : Html.apply_visitor_compute_max = apply_visitor_compute_max := rfl
  have h6 : ∀ (fuel : Nat) (g : Grid) (f : Grid → Nat → Nat → Nat × Grid),
      Html.apply_visitor_until_stable fuel g f = apply_visitor_until_stable fuel g f := by
    intro fuel
    induction fuel with
    | zero => intro g f; rfl
    | succ n ih =>
      intro g f
      unfold Html.apply_visitor_until_stable apply_visitor_until_stable
      by_cases hz : (apply_visitor_pass g f).1 = 0
      · rw [if_pos hz, if_pos hz]
      · rw [if_neg hz, if_neg hz, ih]
  have h6f : Html.apply_visitor_until_stable = apply_visitor_until_stable := by
    funext fuel g f
    exact h6 fuel g f
  have h7 : Html.break_loops = break_loops := rfl
  have houter : Html.outerStep = outerStep := by
    funext fi g
    unfold Html.outerStep outerStep
    rw [h6f, h3, h4, h5, h1, h2, h7]
  have h8 : ∀ (k fi : Nat) (g : Grid), Html.mainLoop k fi g = mainLoop k fi g := by
    intro k
    induction k with
    | zero => intro fi g; rfl
    | succ k ih =>
      intro fi g
      unfold Html.mainLoop mainLoop
      rw [houter]
      cases outerStep fi g with
      | none => rfl
      | some s =>
        cases s with
        | inl g1 => rfl
        | inr g1 => exact ih fi g1
  exact ⟨h1, h2, h3, h4, h5, h6f, h7, by funext k fi g; exact h8 k fi g⟩

theorem stuckGrid_outerStep : ∀ fi : Nat,
    outerStep fi [["S", "X", "E"]] = none ∨
    outerStep fi [["S", "X", "E"]] = some (Sum.inr [["S", "X", "E"]]) := by
  intro fi
  cases fi with
  | zero => left; rfl
  | succ n =>
    right
    have hp : apply_visitor_pass [["S", "X", "E"]] visitor_for_path =
        (0, [["S", "X", "E"]]) := by decide
    have he : apply_visitor_until_stable (n + 1) [["S", "X", "E"]] visitor_for_path =
        some [["S", "X", "E"]] := by
      unfold apply_visitor_until_stable
      rw [hp]
      norm_num
    have hp2 : apply_visitor_pass [["S", "X", "E"]] visitor_for_path_length =
        (0, [["S", "X", "E"]]) := by decide
    have he2 : apply_visitor_until_stable (n + 1) [["S", "X", "E"]] visitor_for_path_length =
        some [["S", "X", "E"]] := by
      unfold apply_visitor_until_stable
      rw [hp2]
      norm_num
    have hA : apply_visitor_compute_max [["S", "X", "E"]]
        (fun h r c => (visitor_for_adjacency h r c : Int)) > 2 := by decide
    have hbreak : break_loops [["S", "X", "E"]]
        (toString (apply_visitor_compute_max [["S", "X", "E"]] visitor_for_length)) =
        [["S", "X", "E"]] := by decide
    unfold outerStep
    rw [he]
    dsimp only
    rw [if_pos hA, he2]
    dsimp only
    rw [hbreak]

theorem stuckGrid_mainLoop : ∀ (k fi : Nat), mainLoop k fi [["S", "X", "E"]] = none := by
  intro k
  induction k with
  | zero => intro fi; rfl
  | succ k ih =>
    intro fi
    unfold mainLoop
    rcases stuckGrid_outerStep fi with h | h
    · rw [h]
    · rw [h]
      dsimp only
      exact ih fi

/-- C2 counterexample: the rectangular grid [["S", " ", "E"]] has exactly
one START, an END, and an OPEN cell adjacent to START, yet the orchestrator
never reaches the done state: the first iteration labels the open cell with
distance 1 and walls it, after which every further iteration measures max
adjacency 3 > 2, propagates no distance, computes the clamped maximum 0 and
breaks loops with the unmatched target "0", leaving the grid unchanged
forever.  mainLoop returns none for every pass budget and iteration budget,
refuting the claimed termination bound. -/
theorem C2_counterexample :
    gget [["S", " ", "E"]] 0 0 = "S" ∧ gget [["S", " ", "E"]] 0 1 = " " ∧
    gget [["S", " ", "E"]] 0 2 = "E" ∧
    ∀ (k fi : Nat), mainLoop k fi [["S", " ", "E"]] = none := by
  refine ⟨by decide, by decide, by decide, ?_⟩
  intro k fi
  cases k with
  | zero => rfl
  | succ k =>
    match fi with
    | 0 => rfl
    | 1 =>
      have h1 : outerStep 1 [["S", " ", "E"]] = none := by decide
      unfold mainLoop
      rw [h1]
    | (m + 2) =>
      have hp : apply_visitor_pass [["S", " ", "E"]] visitor_for_path =
          (0, [["S", " ", "E"]]) := by decide
      have he : apply_visitor_until_stable (m + 2) [["S", " ", "E"]] visitor_for_path =
          some [["S", " ", "E"]] := by
        unfold apply_visitor_until_stable
        rw [hp]
        norm_num
      have hq1 : apply_visitor_pass [["S", " ", "E"]] visitor_for_path_length =
          (1, [["S", "1", "E"]]) := by decide
      have hq2 : apply_visitor_pass [["S", "1", "E"]] visitor_for_path_length =
          (0, [["S", "1", "E"]]) := by decide
      have hprop : apply_visitor_until_stable (m + 2) [["S", " ", "E"]]
          visitor_for_path_length = some [["S", "1", "E"]] := by
        show apply_visitor_until_stable (m + 1 + 1) [["S", " ", "E"]]
          visitor_for_path_length = some [["S", "1", "E"]]
        unfold apply_visitor_until_stable
        rw [hq1]
        norm_num
        unfold apply_visitor_until_stable
        rw [hq2]
        norm_num
      have hA : apply_visitor_compute_max [["S", " ", "E"]]
          (fun h r c => (visitor_for_adjacency h r c : Int)) > 2 := by decide
      have hbreak : break_loops [["S", "1", "E"]]
          (toString (apply_visitor_compute_max [["S", "1", "E"]] visitor_for_length)) =
          [["S", "X", "E"]] := by decide
      have ho : outerStep (m + 2) [["S", " ", "E"]] = some (Sum.inr [["S", "X", "E"]]) := by
        unfold outerStep
        rw [he]
        dsimp only
        rw [if_pos hA, hprop]
        dsimp only
        rw [hbreak]
      unfold mainLoop
      rw [ho]
      dsimp only
      exact stuckGrid_mainLoop k (m + 2)

/-- C2 (amended): the orchestrator need not terminate (see counterexample);
termination does hold whenever every continuing outer iteration reachable
from the start grid strictly increases the WALL count and no reachable
iteration exhausts its pass budget: the loop then reaches the done state
within cellCount g - wallCount g outer iterations, since the wall count is
bounded by the fixed cell count. -/
theorem C2_conditional_termination (fi : Nat) :
    ∀ (k : Nat) (g : Grid),
      (∀ g1, Reaches fi g g1 → outerStep fi g1 ≠ none) →
      (∀ g1 g2, Reaches fi g g1 → outerStep fi g1 = some (Sum.inr g2) →
        wallCount g1 < wallCount g2) →
      cellCount g ≤ k + wallCount g →
      (mainLoop (k + 1) fi g).isSome = true := by
  intro k
  induction k with
  | zero =>
    intro g hstep hinc hk
    cases ho : outerStep fi g with
    | none => exact absurd ho (hstep g (Reaches.refl g))
    | some s =>
      cases s with
      | inl g1 =>
        unfold mainLoop
        rw [ho]
        rfl
      | inr g1 =>
        have h1 := hinc g g1 (Reaches.refl g) ho
        have hsp := outerStep_inr_preserves ho
        have h2 : wallCount g1 ≤ cellCount g1 := wallCount_le_cellCount g1
        have h3 : cellCount g1 = cellCount g := cellCount_eq_of_shapeEq hsp.1
        omega
  | succ k ih =>
    intro g hstep hinc hk
    cases ho : outerStep fi g with
    | none => exact absurd ho (hstep g (Reaches.refl g))
    | some s =>
      cases s with
      | inl g1 =>
        unfold mainLoop
        rw [ho]
        rfl
      | inr g1 =>
        have h1 := hinc g g1 (Reaches.refl g) ho
        have hsp := outerStep_inr_preserves ho
        have h3 : cellCount g1 = cellCount g := cellCount_eq_of_shapeEq hsp.1
        have hext : ∀ g2, Reaches fi g1 g2 → Reaches fi g g2 :=
          fun g2 hr => Reaches.step ho hr
        have hA : (mainLoop (k + 1) fi g1).isSome = true :=
          ih g1 (fun g2 hr => hstep g2 (hext g2 hr))
            (fun g2 g3 hr => hinc g2 g3 (hext g2 hr)) (by omega)
        unfold mainLoop
        rw [ho]
        exact hA

theorem C2_witness : (mainLoop 1 1 [["X"]]).isSome = true := by
  have hdone : outerStep 1 [["X"]] = some (Sum.inl [["X"]]) := by decide
  have hself : ∀ g1, Reaches 1 [["X"]] g1 → g1 = [["X"]] := by
    intro g1 hr
    cases hr with
    | refl => rfl
    | step h1 h2 =>
      rw [hdone] at h1
      simp at h1
  refine C2_conditional_termination 1 0 [["X"]] ?_ ?_ (by decide)
  · intro g1 hr
    rw [hself g1 hr, hdone]
    simp
  · intro g1 g2 hr hstep
    rw [hself g1 hr, hdone] at hstep
    simp at hstep
